import Mathlib

/-!
Shallow embedding of the ISS-Mimic-Mini frontend (Scene.tsx, Model.tsx).

JavaScript plain objects used as string-keyed maps (`Record<string, T>`)
are modelled as ordered association lists with JS assignment semantics:
assigning to an existing key updates the value in place (keeping its
position), assigning to a fresh key appends it, so `Object.keys` order is
insertion order, matching the source's reliance on traversal order.
-/

/-- JS object property assignment `m[k] = v`: update in place or append. -/
def jsInsert {α : Type} (m : List (String × α)) (k : String) (v : α) :
    List (String × α) :=
  match m with
  | [] => [(k, v)]
  | (k₀, v₀) :: rest =>
    if k₀ = k then (k, v) :: rest else (k₀, v₀) :: jsInsert rest k v

/-- JS object property read `m[k]`, `none` playing the role of `undefined`. -/
def jsGet {α : Type} (m : List (String × α)) (k : String) : Option α :=
  match m with
  | [] => none
  | (k₀, v) :: rest => if k₀ = k then some v else jsGet rest k

/-- `Object.keys m`, in JS insertion order. -/
def jsKeys {α : Type} (m : List (String × α)) : List String :=
  m.map Prod.fst

theorem jsGet_jsInsert {α : Type} (m : List (String × α)) (k n : String)
    (v : α) :
    jsGet (jsInsert m k v) n = if k = n then some v else jsGet m n := by
  induction m with
  | nil => simp [jsInsert, jsGet]
  | cons hd tl ih =>
    obtain ⟨k₀, v₀⟩ := hd
    by_cases hk : k₀ = k
    · subst hk
      by_cases hn : k₀ = n <;> simp [jsInsert, jsGet, hn]
    · by_cases hn : k₀ = n
      · subst hn
        have : ¬ k = k₀ := fun h => hk h.symm
        simp [jsInsert, jsGet, hk, this]
      · simp [jsInsert, jsGet, hk, hn, ih]

theorem mem_jsKeys_jsInsert {α : Type} (m : List (String × α)) (k n : String)
    (v : α) :
    n ∈ jsKeys (jsInsert m k v) ↔ n ∈ jsKeys m ∨ n = k := by
  induction m with
  | nil => simp [jsInsert, jsKeys]
  | cons hd tl ih =>
    obtain ⟨k₀, v₀⟩ := hd
    by_cases hk : k₀ = k
    · subst hk
      simp [jsInsert, jsKeys]
      tauto
    · simp [jsInsert, jsKeys, hk] at ih ⊢
      tauto

theorem jsKeys_jsInsert_fresh {α : Type} (m : List (String × α)) (k : String)
    (v : α) (h : k ∉ jsKeys m) :
    jsKeys (jsInsert m k v) = jsKeys m ++ [k] := by
  induction m with
  | nil => simp [jsInsert, jsKeys]
  | cons hd tl ih =>
    obtain ⟨k₀, v₀⟩ := hd
    have h₁ : ¬ k₀ = k := by
      intro he; exact h (by simp [jsKeys, he])
    have h₂ : k ∉ jsKeys tl := by
      intro hm; exact h (by simp [jsKeys] at hm ⊢; tauto)
    show jsKeys (jsInsert ((k₀, v₀) :: tl) k v) = jsKeys ((k₀, v₀) :: tl) ++ [k]
    rw [jsInsert, if_neg h₁]
    show k₀ :: jsKeys (jsInsert tl k v) = (k₀ :: jsKeys tl) ++ [k]
    rw [ih h₂, List.cons_append]

/-- Building a map by assigning the same value `v` to every name in a list:
lookup afterwards. -/
theorem jsGet_foldl_const {α : Type} (v : α) (names : List String) :
    ∀ (m : List (String × α)) (n : String),
      jsGet (names.foldl (fun acc p => jsInsert acc p v) m) n =
        if n ∈ names then some v else jsGet m n := by
  induction names with
  | nil => intro m n; simp
  | cons hd tl ih =>
    intro m n
    by_cases hmem : n ∈ tl
    · simp [List.foldl_cons, ih, hmem]
    · by_cases hh : n = hd
      · subst hh
        simp [List.foldl_cons, ih, hmem, jsGet_jsInsert]
      · simp [List.foldl_cons, ih, hmem, jsGet_jsInsert, Ne.symm hh, hh]

/-! ## Scene controller state (Scene.tsx)

`RotationArray` is a degree triple `[x, y, z]`; the UI sliders produce
integers in `[-180, 180]` (`parseInt` of a range input), so degrees are
modelled as `Int`. -/

/-- `type RotationArray = [number, number, number]` (degrees). -/
abbrev RotationArray : Type := Int × Int × Int

/-- `type PresetName = 'front' | 'top' | 'side' | 'panels' | 'custom1' | 'custom2' | 'none'`. -/
inductive PresetName where
  | front | top | side | panels | custom1 | custom2 | none
deriving DecidableEq, Repr

/-- `Exclude<PresetName, 'none'>`: the argument type of `applyPreset`. -/
inductive PresetChoice where
  | front | top | side | panels | custom1 | custom2
deriving DecidableEq, Repr

def PresetChoice.toName : PresetChoice → PresetName
  | .front => .front
  | .top => .top
  | .side => .side
  | .panels => .panels
  | .custom1 => .custom1
  | .custom2 => .custom2

/-- The `viewPresets` record of Scene.tsx. -/
def viewPresets : PresetChoice → RotationArray
  | .front => (0, 0, 0)
  | .top => (90, 0, 0)
  | .side => (0, 90, 0)
  | .panels => (30, 45, 15)
  | .custom1 => (0, 0, 0)
  | .custom2 => (0, 0, 0)

/-- The slots accepted by `saveAsCustom`. -/
inductive CustomSlot where
  | custom1 | custom2
deriving DecidableEq, Repr

def CustomSlot.toChoice : CustomSlot → PresetChoice
  | .custom1 => .custom1
  | .custom2 => .custom2

/-- The `useState`/`useRef` hooks of the `Scene` component, gathered into one
state record.  `custom1`/`custom2` are the two fields of the `customPresets`
state object; `panelInfoPanels` is the `panelInfoRef` mirror of the list. -/
structure SceneState where
  modelRotation : RotationArray
  activePreset : PresetName
  custom1 : RotationArray
  custom2 : RotationArray
  panelList : List String
  selectedPanel : String
  panelRotations : List (String × RotationArray)
  showPanelControls : Bool
  panelInfoPanels : List String
deriving DecidableEq, Repr

/-- `handlePanelsFound` (Scene.tsx 43–53): store the list, mirror it into the
ref, and build a fresh rotation map giving every reported panel `[0, 0, 0]`. -/
def handlePanelsFound (st : SceneState) (panels : List String) : SceneState :=
  { st with
    panelList := panels
    panelInfoPanels := panels
    panelRotations :=
      panels.foldl (fun acc p => jsInsert acc p ((0, 0, 0) : RotationArray)) [] }

/-- `applyPreset` (Scene.tsx 84–91). -/
def applyPreset (st : SceneState) (p : PresetChoice) : SceneState :=
  let rot :=
    match p with
    | .custom1 => st.custom1
    | .custom2 => st.custom2
    | _ => viewPresets p
  { st with modelRotation := rot, activePreset := p.toName }

/-- `saveAsCustom` (Scene.tsx 94–100). -/
def saveAsCustom (st : SceneState) (slot : CustomSlot) : SceneState :=
  match slot with
  | .custom1 => { st with custom1 := st.modelRotation, activePreset := .custom1 }
  | .custom2 => { st with custom2 := st.modelRotation, activePreset := .custom2 }

/-- `resetAllPanelRotations` (Scene.tsx 108–114): rebuild the rotation map
from `panelList`, all zero. -/
def resetAllPanelRotations (st : SceneState) : SceneState :=
  { st with
    panelRotations :=
      st.panelList.foldl
        (fun acc p => jsInsert acc p ((0, 0, 0) : RotationArray)) [] }

/-- A concrete controller state with one discovered panel `"A"` whose stored
rotation is `(1, 2, 3)`, used to exercise `handlePanelsFound`. -/
def sceneStateA : SceneState :=
  { modelRotation := (0, 0, 0)
    activePreset := .front
    custom1 := (0, 0, 0)
    custom2 := (0, 0, 0)
    panelList := ["A"]
    selectedPanel := ""
    panelRotations := [("A", (1, 2, 3))]
    showPanelControls := false
    panelInfoPanels := ["A"] }

/-! ## Decimal numeral rendering

JS template interpolation `` `Panel_${panelCount++}` `` renders the counter
as its decimal numeral.  `decStr` renders a natural number the same way; it
is fuel-structured so it reduces in the kernel, and its injectivity follows
from the numeric left inverse `strVal`. -/

/-- The decimal digit character for `d < 10` (`'0'` is code 48). -/
def digitCh (d : Nat) : Char := Char.ofNat (48 + d)

/-- Big-endian decimal digit list of `n`; `fuel ≥ n` and `n ≥ 1` (or any
`fuel ≥ 1` when `n < 10`) make it exact. -/
def decAux : Nat → Nat → List Char
  | _, 0 => []
  | n, fuel + 1 =>
    if n < 10 then [digitCh n] else decAux (n / 10) fuel ++ [digitCh (n % 10)]

/-- The decimal numeral of `n`, as JS would print it. -/
def decStr (n : Nat) : String := ⟨decAux n (n + 1)⟩

/-- Numeric value of a big-endian decimal digit character list. -/
def strVal : List Char → Nat
  | [] => 0
  | c :: rest => (c.toNat - 48) * 10 ^ rest.length + strVal rest

theorem digitCh_val_fin : ∀ d : Fin 10, (digitCh d.val).toNat - 48 = d.val := by
  decide

theorem digitCh_val (d : Nat) (h : d < 10) : (digitCh d).toNat - 48 = d :=
  digitCh_val_fin ⟨d, h⟩

theorem strVal_append_last (xs : List Char) (c : Char) :
    strVal (xs ++ [c]) = 10 * strVal xs + (c.toNat - 48) := by
  induction xs with
  | nil => simp [strVal]
  | cons x rest ih =>
    have hl : (rest ++ [c]).length = rest.length + 1 := by simp
    calc strVal (x :: rest ++ [c])
        = (x.toNat - 48) * 10 ^ (rest ++ [c]).length + strVal (rest ++ [c]) :=
          rfl
      _ = (x.toNat - 48) * 10 ^ (rest.length + 1) +
            (10 * strVal rest + (c.toNat - 48)) := by rw [hl, ih]
      _ = 10 * ((x.toNat - 48) * 10 ^ rest.length + strVal rest) +
            (c.toNat - 48) := by ring
      _ = 10 * strVal (x :: rest) + (c.toNat - 48) := rfl

theorem strVal_decAux :
    ∀ (fuel n : Nat), 1 ≤ n → n ≤ fuel → strVal (decAux n fuel) = n := by
  intro fuel
  induction fuel with
  | zero => intro n h1 h2; omega
  | succ fuel ih =>
    intro n h1 h2
    by_cases hlt : n < 10
    · simp [decAux, hlt, strVal, digitCh_val n hlt]
    · have h10 : 10 ≤ n := by omega
      have hdiv_lt : n / 10 < n := Nat.div_lt_self (by omega) (by omega)
      have h1' : 1 ≤ n / 10 := by
        have := Nat.le_div_iff_mul_le (k := 10) (by omega) (x := n) (y := 1)
        omega
      have h2' : n / 10 ≤ fuel := by omega
      have hmod : n % 10 < 10 := Nat.mod_lt _ (by omega)
      rw [decAux]
      simp only [hlt, if_false]
      rw [strVal_append_last, ih (n / 10) h1' h2', digitCh_val _ hmod]
      have := Nat.div_add_mod n 10
      omega

theorem strVal_decStr (n : Nat) : strVal (decStr n).data = n := by
  cases n with
  | zero => decide
  | succ m =>
    show strVal (decAux (m + 1) (m + 2)) = m + 1
    exact strVal_decAux (m + 2) (m + 1) (by omega) (by omega)

theorem decStr_inj {m n : Nat} (h : decStr m = decStr n) : m = n := by
  have := congrArg (fun s => strVal (String.data s)) h
  simpa [strVal_decStr] using this

/-! ## Model adapter: panel discovery (Model.tsx 26–66)

The loaded asset's scene graph is modelled as the list of its nodes in
`scene.traverse` order; each node carries its `name` and `type` string. -/

structure SceneNode where
  name : String
  type : String
deriving DecidableEq, Repr

/-- `pat` occurs at the start of `s` (character lists). -/
def leadsChars : List Char → List Char → Bool
  | [], _ => true
  | _ :: _, [] => false
  | p :: ps, c :: cs => p == c && leadsChars ps cs

/-- `pat` occurs somewhere in `s` (character lists). -/
def subChars (pat : List Char) : List Char → Bool
  | [] => pat.isEmpty
  | c :: rest => leadsChars pat (c :: rest) || subChars pat rest

/-- JS `s.includes(pat)`. -/
def strIncludes (s pat : String) : Bool := subChars pat.data s.data

/-- ASCII lowering, as `toLowerCase` acts on the node names involved. -/
def strToLower (s : String) : String := ⟨s.data.map Char.toLower⟩

/-- The name test of Model.tsx 34–39: the name is truthy (nonempty) and its
lowercase form contains one of `"panel"`, `"solar"`, `"array"`, `"wing"`. -/
def panelNameMatch (name : String) : Bool :=
  name != "" &&
    (strIncludes (strToLower name) "panel" ||
     strIncludes (strToLower name) "solar" ||
     strIncludes (strToLower name) "array" ||
     strIncludes (strToLower name) "wing")

/-- The synthetic fallback name `` `Panel_${k}` ``. -/
def panelLabel (k : Nat) : String := "Panel_" ++ decStr k

/-- One step of the first discovery traversal: record a name-matching node
under its name. -/
def firstStep (acc : List (String × SceneNode)) (node : SceneNode) :
    List (String × SceneNode) :=
  if panelNameMatch node.name then jsInsert acc node.name node else acc

/-- The first discovery traversal (Model.tsx 32–42). -/
def firstPassPanels (scene : List SceneNode) : List (String × SceneNode) :=
  scene.foldl firstStep []

/-- The fallback traversal (Model.tsx 48–59): every `'Mesh'` node is renamed
`Panel_<k>` with a running counter and recorded under that name. -/
def fallbackPanels :
    List SceneNode → List (String × SceneNode) → Nat → List (String × SceneNode)
  | [], acc, _ => acc
  | node :: rest, acc, k =>
    if node.type = "Mesh" then
      fallbackPanels rest
        (jsInsert acc (panelLabel k) { node with name := panelLabel k }) (k + 1)
    else
      fallbackPanels rest acc k

/-- Number of `'Mesh'` nodes in the scene. -/
def meshCount (scene : List SceneNode) : Nat :=
  scene.countP (fun node => node.type == "Mesh")

/-- The discovery effect's report to the parent: `Object.keys(panels)`
(Model.tsx 48, 62–64). -/
def discoverPanels (scene : List SceneNode) : List String :=
  let panels := firstPassPanels scene
  jsKeys (if panels.isEmpty then fallbackPanels scene panels 0 else panels)

theorem panelLabel_inj {i j : Nat} (h : panelLabel i = panelLabel j) :
    i = j := by
  have hd : "Panel_".data ++ (decStr i).data = "Panel_".data ++ (decStr j).data :=
    congrArg String.data h
  have hdd : (decStr i).data = (decStr j).data := List.append_cancel_left hd
  have := congrArg strVal hdd
  rwa [strVal_decStr, strVal_decStr] at this

theorem firstPassPanels_eq_nil (scene : List SceneNode)
    (h : ∀ node ∈ scene, panelNameMatch node.name = false) :
    firstPassPanels scene = [] := by
  have key : ∀ (s : List SceneNode), (∀ node ∈ s, panelNameMatch node.name = false) →
      ∀ acc, s.foldl firstStep acc = acc := by
    intro s
    induction s with
    | nil => intro _ acc; rfl
    | cons node rest ih =>
      intro hs acc
      have hn := hs node (by simp)
      have hr : ∀ x ∈ rest, panelNameMatch x.name = false := fun x hx =>
        hs x (by simp [hx])
      simp [List.foldl_cons, firstStep, hn, ih hr]
  exact key scene h []

theorem jsKeys_fallbackPanels :
    ∀ (scene : List SceneNode) (acc : List (String × SceneNode)) (k : Nat),
      (∀ j, k ≤ j → panelLabel j ∉ jsKeys acc) →
      jsKeys (fallbackPanels scene acc k) =
        jsKeys acc ++ (List.range' k (meshCount scene)).map panelLabel := by
  intro scene
  induction scene with
  | nil => intro acc k _; simp [fallbackPanels, meshCount]
  | cons node rest ih =>
    intro acc k h
    by_cases hm : node.type = "Mesh"
    · have hfresh : panelLabel k ∉ jsKeys acc := h k (le_refl k)
      have hkeys := jsKeys_jsInsert_fresh acc (panelLabel k)
        ({ node with name := panelLabel k }) hfresh
      have hfresh' : ∀ j, k + 1 ≤ j →
          panelLabel j ∉ jsKeys (jsInsert acc (panelLabel k)
            { node with name := panelLabel k }) := by
        intro j hj hmem
        rw [hkeys] at hmem
        rcases List.mem_append.mp hmem with hc | hc
        · exact h j (by omega) hc
        · have : panelLabel j = panelLabel k := by simpa using hc
          have := panelLabel_inj this
          omega
      have hcnt : meshCount (node :: rest) = meshCount rest + 1 := by
        simp [meshCount, List.countP_cons, hm]
      rw [show fallbackPanels (node :: rest) acc k =
            fallbackPanels rest
              (jsInsert acc (panelLabel k) { node with name := panelLabel k })
              (k + 1) by simp [fallbackPanels, hm]]
      rw [ih _ (k + 1) hfresh', hkeys, hcnt, List.range'_succ k (meshCount rest) 1]
      simp [List.append_assoc]
    · have hcnt : meshCount (node :: rest) = meshCount rest := by
        simp [meshCount, List.countP_cons, hm]
      rw [show fallbackPanels (node :: rest) acc k = fallbackPanels rest acc k by
            simp [fallbackPanels, hm]]
      rw [ih acc k h, hcnt]

/-- Membership in the keys produced by the first discovery traversal. -/
theorem mem_jsKeys_firstPassPanels (scene : List SceneNode) (n : String) :
    n ∈ jsKeys (firstPassPanels scene) ↔
      ∃ node ∈ scene, node.name = n ∧ panelNameMatch node.name = true := by
  have key : ∀ (s : List SceneNode) (acc : List (String × SceneNode)),
      n ∈ jsKeys (s.foldl firstStep acc) ↔
        n ∈ jsKeys acc ∨
          ∃ node ∈ s, node.name = n ∧ panelNameMatch node.name = true := by
    intro s
    induction s with
    | nil => intro acc; simp
    | cons node rest ih =>
      intro acc
      rw [List.foldl_cons, ih]
      by_cases hmatch : panelNameMatch node.name
      · rw [show firstStep acc node = jsInsert acc node.name node by
              simp [firstStep, hmatch]]
        rw [mem_jsKeys_jsInsert]
        constructor
        · rintro (⟨hc | hc⟩ | ⟨x, hx, hn, hm⟩)
          · exact Or.inl hc
          · exact Or.inr ⟨node, by simp, hc.symm, hmatch⟩
          · exact Or.inr ⟨x, by simp [hx], hn, hm⟩
        · rintro (hc | ⟨x, hx, hn, hm⟩)
          · exact Or.inl (Or.inl hc)
          · rcases List.mem_cons.mp hx with hx | hx
            · subst hx; exact Or.inl (Or.inr hn.symm)
            · exact Or.inr ⟨x, hx, hn, hm⟩
      · rw [show firstStep acc node = acc by
              simp [firstStep, hmatch]]
        constructor
        · rintro (hc | ⟨x, hx, hn, hm⟩)
          · exact Or.inl hc
          · exact Or.inr ⟨x, by simp [hx], hn, hm⟩
        · rintro (hc | ⟨x, hx, hn, hm⟩)
          · exact Or.inl hc
          · rcases List.mem_cons.mp hx with hx | hx
            · subst hx; simp [hm] at hmatch
            · exact Or.inr ⟨x, hx, hn, hm⟩
  rw [firstPassPanels, key scene []]
  simp [jsKeys]

/-! ## Model adapter: per-panel rotation effect (Model.tsx 87–111)

Orientations are in the asset's native angular unit (radians).  The
degree→radian factor π/180 is irrational, so `MathUtils.degToRad` is
modelled as multiplication by an abstract rational factor `d2r`; every
theorem below holds for all values of that factor. -/

/-- A scene-graph object as the rotation effect sees it: its current
orientation and the lazily captured `userData.originalRotation`. -/
structure Obj3D where
  rotation : ℚ × ℚ × ℚ
  originalRotation : Option (ℚ × ℚ × ℚ)
deriving DecidableEq, Repr

/-- `MathUtils.degToRad` with the conversion factor `d2r` abstracted. -/
def degToRad (d2r : ℚ) (deg : ℚ) : ℚ := deg * d2r

/-- The loop body of the rotation effect, for one `[panelName, rotation]`
entry of `Object.entries(panelRotations)`: skip unknown panels, capture the
original pose if absent, then set the pose to original plus the converted
request, per axis. -/
def applyPanelEntry (d2r : ℚ) (objs : List (String × Obj3D))
    (entry : String × (ℚ × ℚ × ℚ)) : List (String × Obj3D) :=
  match jsGet objs entry.1 with
  | none => objs
  | some panel =>
    let orig :=
      match panel.originalRotation with
      | some o => o
      | none => panel.rotation
    jsInsert objs entry.1
      { rotation :=
          (orig.1 + degToRad d2r entry.2.1,
           orig.2.1 + degToRad d2r entry.2.2.1,
           orig.2.2 + degToRad d2r entry.2.2.2)
        originalRotation := some orig }

/-- The whole rotation effect: a no-op until panels have been identified,
then one `applyPanelEntry` per entry of the rotation map. -/
def applyPanelRotations (d2r : ℚ) (objs : List (String × Obj3D))
    (rots : List (String × (ℚ × ℚ × ℚ))) : List (String × Obj3D) :=
  if objs.isEmpty then objs else rots.foldl (applyPanelEntry d2r) objs

theorem applyPanelEntry_get_other (d2r : ℚ) (objs : List (String × Obj3D))
    (entry : String × (ℚ × ℚ × ℚ)) (nm : String) (h : entry.1 ≠ nm) :
    jsGet (applyPanelEntry d2r objs entry) nm = jsGet objs nm := by
  unfold applyPanelEntry
  cases hg : jsGet objs entry.1 with
  | none => rfl
  | some panel => simp [jsGet_jsInsert, h]

theorem foldl_applyPanelEntry_other (d2r : ℚ) :
    ∀ (rots : List (String × (ℚ × ℚ × ℚ))) (objs : List (String × Obj3D))
      (nm : String), (∀ e ∈ rots, e.1 ≠ nm) →
      jsGet (rots.foldl (applyPanelEntry d2r) objs) nm = jsGet objs nm := by
  intro rots
  induction rots with
  | nil => intro objs nm _; rfl
  | cons e rest ih =>
    intro objs nm h
    rw [List.foldl_cons, ih _ _ (fun x hx => h x (by simp [hx])),
      applyPanelEntry_get_other _ _ _ _ (h e (by simp))]

theorem foldl_applyPanelEntry_get (d2r : ℚ) :
    ∀ (rots : List (String × (ℚ × ℚ × ℚ))) (objs : List (String × Obj3D))
      (nm : String) (obj : Obj3D) (orig rq : ℚ × ℚ × ℚ),
      (rots.map Prod.fst).Nodup →
      jsGet objs nm = some obj →
      obj.originalRotation = some orig →
      jsGet rots nm = some rq →
      jsGet (rots.foldl (applyPanelEntry d2r) objs) nm =
        some { rotation :=
                 (orig.1 + degToRad d2r rq.1,
                  orig.2.1 + degToRad d2r rq.2.1,
                  orig.2.2 + degToRad d2r rq.2.2)
               originalRotation := some orig } := by
  intro rots
  induction rots with
  | nil => intro objs nm obj orig rq _ _ _ hrot; simp [jsGet] at hrot
  | cons e rest ih =>
    intro objs nm obj orig rq hnodup hobj horig hrot
    rw [List.map_cons, List.nodup_cons] at hnodup
    by_cases he : e.1 = nm
    · have hrq : e.2 = rq := by
        rw [show jsGet (e :: rest) nm = some e.2 by simp [jsGet, he]] at hrot
        exact Option.some.inj hrot
      have hrest : ∀ x ∈ rest, x.1 ≠ nm := by
        intro x hx hxe
        exact hnodup.1 (he ▸ hxe ▸ List.mem_map_of_mem Prod.fst hx)
      rw [List.foldl_cons, foldl_applyPanelEntry_other _ _ _ _ hrest]
      rw [show applyPanelEntry d2r objs e =
            jsInsert objs e.1
              { rotation :=
                  (orig.1 + degToRad d2r e.2.1,
                   orig.2.1 + degToRad d2r e.2.2.1,
                   orig.2.2 + degToRad d2r e.2.2.2)
                originalRotation := some orig } by
        unfold applyPanelEntry
        rw [he, hobj]
        simp [horig]]
      rw [jsGet_jsInsert]
      simp [he, hrq]
    · have hrot' : jsGet rest nm = some rq := by
        rw [show jsGet (e :: rest) nm = jsGet rest nm by simp [jsGet, he]] at hrot
        exact hrot
      have hobj' : jsGet (applyPanelEntry d2r objs e) nm = some obj := by
        rw [applyPanelEntry_get_other _ _ _ _ he, hobj]
      rw [List.foldl_cons]
      exact ih _ _ _ _ _ hnodup.2 hobj' horig hrot'

/-! ## Persistence load effect (Scene.tsx 122–145)

At runtime the TypeScript annotations are erased: `JSON.parse` hands back an
arbitrary JSON value and the code stores it as-is, so the two state fields
written by the load effect are modelled with a `Json` value type.
`JSON.parse` itself is an external browser service and is abstracted as a
`String → Option Json` parameter (`none` = the parse threw). -/

inductive Json where
  | jnull
  | jbool (b : Bool)
  | jnum (q : ℚ)
  | jstr (s : String)
  | jarr (elems : List Json)
  | jobj (fields : List (String × Json))
deriving Repr

/-- JS `ToBoolean` on a JSON value: `null`, `false`, `0` and `""` are falsy;
arrays and objects are truthy. -/
def Json.truthy : Json → Bool
  | .jnull => false
  | .jbool b => b
  | .jnum q => q != 0
  | .jstr s => s != ""
  | .jarr _ => true
  | .jobj _ => true

/-- JS property read `parsed.k`, with `none` for `undefined`.  (A read on
`null` throws instead, but that `TypeError` lands in the same `catch` as a
parse failure, so the falsy `none` reproduces the observable outcome.) -/
def Json.getProp : Json → String → Option Json
  | .jobj fields, k => jsGet fields k
  | _, _ => none

/-- Truthiness of a possibly-`undefined` JS value. -/
def truthyOpt : Option Json → Bool
  | none => false
  | some j => j.truthy

/-- The two state fields the load effect writes, holding raw parsed values. -/
structure LoadedState where
  customPresets : Json
  panelRotations : Json
deriving Repr

/-- First half of the load effect (Scene.tsx 123–133): read the custom-preset
key; a missing or empty stored string (JS falsy) is skipped, a parse failure
is caught and ignored, and a parsed value is applied only when both its
`custom1` and `custom2` properties are truthy. -/
def loadCustomStep (parse : String → Option Json) (saved : Option String)
    (st : LoadedState) : LoadedState :=
  match saved with
  | none => st
  | some s =>
    if s = "" then st
    else
      match parse s with
      | none => st
      | some parsed =>
        if truthyOpt (parsed.getProp "custom1") &&
            truthyOpt (parsed.getProp "custom2") then
          { st with customPresets := parsed }
        else st

/-- Second half of the load effect (Scene.tsx 136–144): read the
panel-rotation key; a parsed value is applied unconditionally. -/
def loadPanelsStep (parse : String → Option Json) (saved : Option String)
    (st : LoadedState) : LoadedState :=
  match saved with
  | none => st
  | some s =>
    if s = "" then st
    else
      match parse s with
      | none => st
      | some parsed => { st with panelRotations := parsed }

/-- The whole mount-time load effect (Scene.tsx 122–145). -/
def loadEffect (parse : String → Option Json)
    (savedCustom savedPanels : Option String) (st : LoadedState) : LoadedState :=
  loadPanelsStep parse savedPanels (loadCustomStep parse savedCustom st)

theorem loadCustomStep_panelRotations (parse : String → Option Json)
    (saved : Option String) (st : LoadedState) :
    (loadCustomStep parse saved st).panelRotations = st.panelRotations := by
  unfold loadCustomStep
  cases saved with
  | none => rfl
  | some s =>
    by_cases hs : s = ""
    · simp [hs]
    · simp only [if_neg hs]
      cases hp : parse s with
      | none => rfl
      | some parsed =>
        by_cases ht : (truthyOpt (parsed.getProp "custom1") &&
            truthyOpt (parsed.getProp "custom2")) = true
        · simp [ht]
        · simp [ht]

theorem loadPanelsStep_customPresets (parse : String → Option Json)
    (saved : Option String) (st : LoadedState) :
    (loadPanelsStep parse saved st).customPresets = st.customPresets := by
  unfold loadPanelsStep
  cases saved with
  | none => rfl
  | some s =>
    by_cases hs : s = ""
    · simp [hs]
    · simp only [if_neg hs]
      cases hp : parse s with
      | none => rfl
      | some parsed => rfl

theorem loadCustomStep_parse_fail (parse : String → Option Json)
    (saved : Option String) (st : LoadedState)
    (h : ∀ s, saved = some s → parse s = none) :
    loadCustomStep parse saved st = st := by
  unfold loadCustomStep
  cases saved with
  | none => rfl
  | some s =>
    by_cases hs : s = ""
    · simp [hs]
    · simp [hs, h s rfl]

theorem loadPanelsStep_parse_fail (parse : String → Option Json)
    (saved : Option String) (st : LoadedState)
    (h : ∀ s, saved = some s → parse s = none) :
    loadPanelsStep parse saved st = st := by
  unfold loadPanelsStep
  cases saved with
  | none => rfl
  | some s =>
    by_cases hs : s = ""
    · simp [hs]
    · simp [hs, h s rfl]

theorem loadCustomStep_parse_ok (parse : String → Option Json) (s : String)
    (j : Json) (st : LoadedState) (hs : s ≠ "") (hp : parse s = some j) :
    loadCustomStep parse (some s) st =
      if truthyOpt (j.getProp "custom1") && truthyOpt (j.getProp "custom2") then
        { st with customPresets := j }
      else st := by
  unfold loadCustomStep
  simp [hs, hp]

theorem loadPanelsStep_parse_ok (parse : String → Option Json) (s : String)
    (j : Json) (st : LoadedState) (hs : s ≠ "") (hp : parse s = some j) :
    loadPanelsStep parse (some s) st = { st with panelRotations := j } := by
  unfold loadPanelsStep
  simp [hs, hp]

/-- The in-memory defaults of a freshly mounted scene with the two solar
wings discovered: all-zero custom presets and an all-zero panel rotation
map, as `handlePanelsFound` leaves them. -/
def defaultLoaded : LoadedState :=
  { customPresets :=
      Json.jobj
        [("custom1", Json.jarr [Json.jnum 0, Json.jnum 0, Json.jnum 0]),
         ("custom2", Json.jarr [Json.jnum 0, Json.jnum 0, Json.jnum 0])]
    panelRotations :=
      Json.jobj
        [("SolarWingLeft", Json.jarr [Json.jnum 0, Json.jnum 0, Json.jnum 0]),
         ("SolarWingRight", Json.jarr [Json.jnum 0, Json.jnum 0, Json.jnum 0])] }

/-! ## Claim theorems -/

/-- C1 (counterexample): the claim says a rotation entry already present in
the map survives `handlePanelsFound` unchanged.  In state `sceneStateA` panel
`"A"` is present with rotation `(1, 2, 3)`, yet after the callback delivers
`["A"]` its entry reads `(0, 0, 0)`. -/
theorem handlePanelsFound_preserves_counterexample :
    jsGet sceneStateA.panelRotations "A" = some (1, 2, 3) ∧
      jsGet (handlePanelsFound sceneStateA ["A"]).panelRotations "A" =
        some (0, 0, 0) := by
  constructor <;> rfl

/-- C1 (amended): `handlePanelsFound` replaces the panel name list and
(re)initializes EVERY delivered panel's rotation entry to `(0, 0, 0)` —
including panels already present in the rotation map, whose previous
entries are discarded rather than preserved. -/
theorem handlePanelsFound_reinitializes_all (st : SceneState)
    (names : List String) :
    (handlePanelsFound st names).panelList = names ∧
      ∀ n ∈ names,
        jsGet (handlePanelsFound st names).panelRotations n =
          some ((0, 0, 0) : RotationArray) := by
  refine ⟨rfl, ?_⟩
  intro n hn
  show jsGet (names.foldl (fun acc p =>
    jsInsert acc p ((0, 0, 0) : RotationArray)) []) n = _
  rw [jsGet_foldl_const]
  simp [hn]

/-- C1 (witness): the amended statement at the concrete rediscovery of
`["A"]` over `sceneStateA`. -/
theorem handlePanelsFound_reinitializes_all_witness :
    (handlePanelsFound sceneStateA ["A"]).panelList = ["A"] ∧
      jsGet (handlePanelsFound sceneStateA ["A"]).panelRotations "A" =
        some ((0, 0, 0) : RotationArray) :=
  ⟨(handlePanelsFound_reinitializes_all sceneStateA ["A"]).1,
   (handlePanelsFound_reinitializes_all sceneStateA ["A"]).2 "A" (by simp)⟩

/-- C2: for a discovered panel with a captured original pose and a requested
rotation triple in `[-180, 180]³`, the rotation effect sets each axis of the
panel's orientation to the original pose's value plus the requested degrees
converted to native units (conversion factor `d2r`), and keeps the captured
original pose. -/
theorem panel_rotation_additive_from_original (d2r : ℚ)
    (objs : List (String × Obj3D)) (rots : List (String × (ℚ × ℚ × ℚ)))
    (nm : String) (obj : Obj3D) (orig rq : ℚ × ℚ × ℚ)
    (hnodup : (rots.map Prod.fst).Nodup)
    (hobj : jsGet objs nm = some obj)
    (horig : obj.originalRotation = some orig)
    (hrot : jsGet rots nm = some rq)
    (hx : -180 ≤ rq.1 ∧ rq.1 ≤ 180)
    (hy : -180 ≤ rq.2.1 ∧ rq.2.1 ≤ 180)
    (hz : -180 ≤ rq.2.2 ∧ rq.2.2 ≤ 180) :
    jsGet (applyPanelRotations d2r objs rots) nm =
      some { rotation :=
               (orig.1 + degToRad d2r rq.1,
                orig.2.1 + degToRad d2r rq.2.1,
                orig.2.2 + degToRad d2r rq.2.2)
             originalRotation := some orig } := by
  have hne : objs.isEmpty = false := by
    cases objs with
    | nil => simp [jsGet] at hobj
    | cons a l => rfl
  simp only [applyPanelRotations, hne, Bool.false_eq_true, if_false]
  exact foldl_applyPanelEntry_get d2r rots objs nm obj orig rq hnodup hobj
    horig hrot

/-- C2 (witness): requesting `(45, 0, 0)` on `"SolarWingLeft"` whose original
pose is `(4, 5, 6)` (current pose `(7, 8, 9)`) yields original‑X plus 45
converted, with Y and Z at their original values. -/
theorem panel_rotation_additive_from_original_witness :
    jsGet (applyPanelRotations (1/2)
        [("SolarWingLeft", ⟨(7, 8, 9), some (4, 5, 6)⟩)]
        [("SolarWingLeft", (45, 0, 0))]) "SolarWingLeft" =
      some { rotation :=
               (4 + degToRad (1/2) 45, 5 + degToRad (1/2) 0,
                6 + degToRad (1/2) 0)
             originalRotation := some (4, 5, 6) } :=
  panel_rotation_additive_from_original (1/2)
    [("SolarWingLeft", ⟨(7, 8, 9), some (4, 5, 6)⟩)]
    [("SolarWingLeft", (45, 0, 0))] "SolarWingLeft"
    ⟨(7, 8, 9), some (4, 5, 6)⟩ (4, 5, 6) (45, 0, 0)
    (by decide) rfl rfl rfl ⟨by norm_num, by norm_num⟩
    ⟨by norm_num, by norm_num⟩ ⟨by norm_num, by norm_num⟩

/-- C3: for a scene in which no node name matches the panel heuristic and
with `N` mesh nodes, discovery reports exactly the synthetic names
`Panel_0 .. Panel_{N-1}` in traversal order. -/
theorem discovery_fallback_synthetic_names (scene : List SceneNode)
    (h : ∀ node ∈ scene, panelNameMatch node.name = false) :
    discoverPanels scene = (List.range (meshCount scene)).map panelLabel := by
  have h1 : firstPassPanels scene = [] := firstPassPanels_eq_nil scene h
  have h2 := jsKeys_fallbackPanels scene [] 0
    (by intro j _ hj; simp [jsKeys] at hj)
  simp only [discoverPanels, h1, List.isEmpty_nil, if_pos]
  rw [h2, List.range_eq_range']
  simp [jsKeys]

/-- C3 (witness): a scene of nodes `Body`/`Strut`/`Dish` with no matching
name and two meshes yields exactly `["Panel_0", "Panel_1"]`. -/
theorem discovery_fallback_synthetic_names_witness :
    discoverPanels
        [⟨"Body", "Mesh"⟩, ⟨"Strut", "Object3D"⟩, ⟨"Dish", "Mesh"⟩] =
      ["Panel_0", "Panel_1"] := by
  rw [discovery_fallback_synthetic_names
    [⟨"Body", "Mesh"⟩, ⟨"Strut", "Object3D"⟩, ⟨"Dish", "Mesh"⟩] (by decide)]
  decide

/-- The concrete scene of the C4 scenario. -/
def namedScene : List SceneNode :=
  [⟨"Body", "Object3D"⟩, ⟨"SolarWingLeft", "Object3D"⟩,
   ⟨"SolarWingRight", "Object3D"⟩, ⟨"Camera", "Object3D"⟩]

/-- When at least one node name matches, discovery reports the first-pass
keys. -/
theorem discoverPanels_of_match (scene : List SceneNode)
    (h : ∃ node ∈ scene, panelNameMatch node.name = true) :
    discoverPanels scene = jsKeys (firstPassPanels scene) := by
  obtain ⟨node, hmem, hm⟩ := h
  have hmemk : node.name ∈ jsKeys (firstPassPanels scene) :=
    (mem_jsKeys_firstPassPanels scene node.name).mpr ⟨node, hmem, rfl, hm⟩
  simp only [discoverPanels]
  cases hfp : firstPassPanels scene with
  | nil => rw [hfp] at hmemk; simp [jsKeys] at hmemk
  | cons a l => simp

/-- C4 (counterexample): the claim's "reported if and only if the name
matches" fails on a scene with no matching names but a mesh: the mesh node
named `"Body"` does not match the substring heuristic, yet discovery
reports a panel for it (under the synthetic name the fallback assigns). -/
theorem discovery_name_iff_counterexample :
    panelNameMatch "Body" = false ∧
      discoverPanels [⟨"Body", "Mesh"⟩] = ["Panel_0"] := by
  constructor
  · decide
  · decide

/-- C4 (amended): whenever at least one node name matches (so the mesh
fallback is not triggered), a name is reported as a panel iff some node
carries it and it matches the case-insensitive substring heuristic; and on
the node-name sequence `["Body", "SolarWingLeft", "SolarWingRight",
"Camera"]` discovery reports exactly `["SolarWingLeft", "SolarWingRight"]`
in that traversal order. -/
theorem discovery_name_match_characterization :
    (∀ (scene : List SceneNode) (n : String),
        scene.any (fun node => panelNameMatch node.name) = true →
        (n ∈ discoverPanels scene ↔
          ∃ node ∈ scene, node.name = n ∧ panelNameMatch n = true)) ∧
      discoverPanels namedScene = ["SolarWingLeft", "SolarWingRight"] := by
  constructor
  · intro scene n hany
    rw [List.any_eq_true] at hany
    obtain ⟨node, hmem, hm⟩ := hany
    rw [discoverPanels_of_match scene ⟨node, hmem, hm⟩,
      mem_jsKeys_firstPassPanels]
    constructor
    · rintro ⟨x, hx, hxn, hxm⟩
      refine ⟨x, hx, hxn, ?_⟩
      rw [← hxn]; exact hxm
    · rintro ⟨x, hx, hxn, hxm⟩
      refine ⟨x, hx, hxn, ?_⟩
      rw [hxn]; exact hxm
  · decide

/-- C4 (witness): the amended characterization instantiated at
`"SolarWingLeft"` on the concrete scene. -/
theorem discovery_name_match_characterization_witness :
    "SolarWingLeft" ∈ discoverPanels namedScene ↔
      ∃ node ∈ namedScene, node.name = "SolarWingLeft" ∧
        panelNameMatch "SolarWingLeft" = true :=
  discovery_name_match_characterization.1 namedScene "SolarWingLeft"
    (by decide)

/-- C5: `saveAsCustom` followed immediately by `applyPreset` of the same
slot restores the model rotation that was current at save time. -/
theorem save_then_apply_roundtrip (st : SceneState) (slot : CustomSlot) :
    (applyPreset (saveAsCustom st slot) slot.toChoice).modelRotation =
      st.modelRotation := by
  cases slot <;> rfl

/-- C6: `applyPreset` is idempotent — applying the same preset twice yields
a state identical to applying it once (in particular the same model
rotation and active preset). -/
theorem applyPreset_idempotent (st : SceneState) (p : PresetChoice) :
    applyPreset (applyPreset st p) p = applyPreset st p := by
  cases p <;> rfl

/-- C7: `resetAllPanelRotations` zeroes every discovered panel's rotation
entry and leaves the model's own rotation and both stored custom presets
unchanged. -/
theorem resetAllPanels_zeroes_and_frame (st : SceneState) :
    (resetAllPanelRotations st).modelRotation = st.modelRotation ∧
      (resetAllPanelRotations st).custom1 = st.custom1 ∧
      (resetAllPanelRotations st).custom2 = st.custom2 ∧
      ∀ n ∈ st.panelList,
        jsGet (resetAllPanelRotations st).panelRotations n =
          some ((0, 0, 0) : RotationArray) := by
  refine ⟨rfl, rfl, rfl, ?_⟩
  intro n hn
  show jsGet (st.panelList.foldl (fun acc p =>
    jsInsert acc p ((0, 0, 0) : RotationArray)) []) n = _
  rw [jsGet_foldl_const]
  simp [hn]

/-- C7 (witness): the reset over `sceneStateA` zeroes panel `"A"` and keeps
the model rotation and custom presets. -/
theorem resetAllPanels_zeroes_and_frame_witness :
    (resetAllPanelRotations sceneStateA).modelRotation =
        sceneStateA.modelRotation ∧
      jsGet (resetAllPanelRotations sceneStateA).panelRotations "A" =
        some ((0, 0, 0) : RotationArray) :=
  ⟨(resetAllPanels_zeroes_and_frame sceneStateA).1,
   (resetAllPanels_zeroes_and_frame sceneStateA).2.2.2 "A"
     (by simp [sceneStateA])⟩

/-- C8: a persisted-storage string that fails to parse (for either key)
leaves the corresponding in-memory state untouched; the load effect is a
total function, so no exception escapes. -/
theorem load_parse_failure_keeps_defaults (parse : String → Option Json)
    (savedCustom savedPanels : Option String) (st : LoadedState) :
    ((∀ s, savedCustom = some s → parse s = none) →
        (loadEffect parse savedCustom savedPanels st).customPresets =
          st.customPresets) ∧
      ((∀ s, savedPanels = some s → parse s = none) →
        (loadEffect parse savedCustom savedPanels st).panelRotations =
          st.panelRotations) := by
  constructor
  · intro h
    unfold loadEffect
    rw [loadPanelsStep_customPresets,
      loadCustomStep_parse_fail parse savedCustom st h]
  · intro h
    unfold loadEffect
    rw [loadPanelsStep_parse_fail parse savedPanels _ h,
      loadCustomStep_panelRotations]

/-- C8 (witness): with both keys holding malformed text (every parse fails),
loading over the all-zero defaults leaves them in place. -/
theorem load_parse_failure_keeps_defaults_witness :
    (loadEffect (fun _ => none) (some "corrupt") (some "not json")
        defaultLoaded).customPresets = defaultLoaded.customPresets ∧
      (loadEffect (fun _ => none) (some "corrupt") (some "not json")
        defaultLoaded).panelRotations = defaultLoaded.panelRotations :=
  ⟨(load_parse_failure_keeps_defaults (fun _ => none) (some "corrupt")
      (some "not json") defaultLoaded).1 (fun _ _ => rfl),
   (load_parse_failure_keeps_defaults (fun _ => none) (some "corrupt")
      (some "not json") defaultLoaded).2 (fun _ _ => rfl)⟩

/-- C9: a successfully parsed custom-preset blob is applied only when both
its `custom1` and `custom2` properties are truthy — otherwise it is
silently ignored — whereas a successfully parsed panel-rotation blob is
applied unconditionally, replacing the state with whatever value parsed. -/
theorem load_parsed_blob_application (parse : String → Option Json)
    (s₁ s₂ : String) (j₁ j₂ : Json) (st : LoadedState)
    (hs₁ : s₁ ≠ "") (hs₂ : s₂ ≠ "")
    (hp₁ : parse s₁ = some j₁) (hp₂ : parse s₂ = some j₂) :
    ((truthyOpt (j₁.getProp "custom1") &&
        truthyOpt (j₁.getProp "custom2")) = false →
        (loadEffect parse (some s₁) (some s₂) st).customPresets =
          st.customPresets) ∧
      ((truthyOpt (j₁.getProp "custom1") &&
        truthyOpt (j₁.getProp "custom2")) = true →
        (loadEffect parse (some s₁) (some s₂) st).customPresets = j₁) ∧
      (loadEffect parse (some s₁) (some s₂) st).panelRotations = j₂ := by
  unfold loadEffect
  rw [loadPanelsStep_parse_ok parse s₂ j₂ _ hs₂ hp₂,
    loadCustomStep_parse_ok parse s₁ j₁ st hs₁ hp₁]
  refine ⟨?_, ?_, by simp⟩
  · intro hf
    simp [hf]
  · intro ht
    simp [ht]

/-- A concrete stand-in for `JSON.parse` used by the C9 witness: key `"c"`
parses to an object missing `custom2`, key `"p"` parses to `null`. -/
def parseW : String → Option Json := fun s =>
  if s = "c" then
    some (Json.jobj
      [("custom1", Json.jarr [Json.jnum 1, Json.jnum 2, Json.jnum 3])])
  else if s = "p" then some Json.jnull
  else none

/-- C9 (witness): a well-formed blob missing `custom2` is ignored for the
custom presets, while the panel-rotation state becomes the parsed value
(`null` here) with no shape validation. -/
theorem load_parsed_blob_application_witness :
    (loadEffect parseW (some "c") (some "p") defaultLoaded).customPresets =
        defaultLoaded.customPresets ∧
      (loadEffect parseW (some "c") (some "p") defaultLoaded).panelRotations =
        Json.jnull :=
  ⟨(load_parsed_blob_application parseW "c" "p"
      (Json.jobj
        [("custom1", Json.jarr [Json.jnum 1, Json.jnum 2, Json.jnum 3])])
      Json.jnull defaultLoaded (by decide) (by decide) rfl rfl).1 rfl,
   (load_parsed_blob_application parseW "c" "p"
      (Json.jobj
        [("custom1", Json.jarr [Json.jnum 1, Json.jnum 2, Json.jnum 3])])
      Json.jnull defaultLoaded (by decide) (by decide) rfl rfl).2.2⟩

/-- C10: after `resetAllPanelRotations` the domain of the panel rotation map
is exactly the discovered panel name list — an entry whose name is not in
the list (for example one restored from persisted storage for a name never
discovered) is removed, not merely left at its old value. -/
theorem resetAllPanels_domain_exact (st : SceneState) (n : String) :
    (jsGet (resetAllPanelRotations st).panelRotations n).isSome = true ↔
      n ∈ st.panelList := by
  show (jsGet (st.panelList.foldl (fun acc p =>
    jsInsert acc p ((0, 0, 0) : RotationArray)) []) n).isSome = true ↔ _
  rw [jsGet_foldl_const]
  by_cases h : n ∈ st.panelList <;> simp [h, jsGet]
